import Mathlib

/-!
# Verification of the `model_convert` speech-emotion backend

Shallow embedding, in Lean 4, of the parts of the repository that the
specification talks about:

* `src/backend/model_service.py` — `ModelService.predict_emotion` and
  `ModelService._apply_temporal_smoothing` (temporal smoother);
* `src/backend/audio_processor.py` — `extract_features`,
  `extract_features_for_asr`, `detect_speech`, `calculate_speech_rate`;
* `src/backend/api/inference_service.py` /
  `src/backend/external_inference_handler.py` — the remote-retry fallback
  chain;
* `src/backend/asr_service.py` — `ASRService.process_audio`.

Python floats are idealised as rationals (`ℚ`); NumPy / librosa / SciPy /
torch library calls that the code relies on are embedded by their documented
semantics (noted at each definition).  Feature computations that call opaque
DSP or neural-network code (librosa MFCC pipelines, the Keras / torch models)
are taken as explicit function parameters, so every theorem quantifies over
them.
-/

namespace ModelConvert

/-! ## `model_service.py` — data model

`self.emotions = ['anger', 'disgust', 'fear', 'happiness', 'sadness',
'surprise', 'neutral']`.  A probability vector (NumPy array of length 7) is
embedded as `Fin 7 → ℚ`. -/

inductive Emotion where
  | anger | disgust | fear | happiness | sadness | surprise | neutral
deriving DecidableEq, Repr

/-- Position of an emotion in `self.emotions` (`self.emotions.index(e)`). -/
def Emotion.idx : Emotion → Fin 7
  | .anger => 0
  | .disgust => 1
  | .fear => 2
  | .happiness => 3
  | .sadness => 4
  | .surprise => 5
  | .neutral => 6

/-- `self.emotions[i]` — the emotion at index `i`. -/
def emotionAt : Fin 7 → Emotion
  | 0 => .anger
  | 1 => .disgust
  | 2 => .fear
  | 3 => .happiness
  | 4 => .sadness
  | 5 => .surprise
  | 6 => .neutral

/-- A probability vector over the seven emotions. -/
def Probs : Type := Fin 7 → ℚ

/-- Mutable smoothing state of `ModelService`:
`self.emotion_history` (a `deque(maxlen=8)` of `(emotion, probs)` pairs),
`self.current_emotion` (`None` initially), and
`self.emotion_stability_count`. -/
structure SmootherState where
  history : List (Emotion × Probs)
  current : Option Emotion
  stability : ℕ

/-- The state set up by `ModelService.__init__`: empty history, no committed
emotion, stability counter 0. -/
def freshSmoother : SmootherState := ⟨[], none, 0⟩

/-- `self.emotion_history.append(x)` on a `deque(maxlen=8)`: append on the
right, dropping from the left once the length exceeds 8. -/
def dequePush8 (h : List (Emotion × Probs)) (x : Emotion × Probs) :
    List (Emotion × Probs) :=
  let h' := h ++ [x]
  h'.drop (h'.length - 8)

/-- The recency weight of history entry `idx` (0 = oldest):
`weight = 1.0 + (idx * 0.6)**2` (line 150 of `model_service.py`). -/
def voteWeight (idx : ℕ) : ℚ := 1 + ((idx : ℚ) * (6/10))^2

/-- Accumulator for the vote loop over the history: the Python dicts
`emotion_counts` / `emotion_total_probs` are embedded as total functions that
are 0 outside their key set, plus the key list in insertion
(first-occurrence) order — dict iteration order matters for the stable sort
below. -/
structure VoteAcc where
  keys : List Emotion
  counts : Emotion → ℚ
  probSums : Emotion → ℚ

/-- One iteration of
`for idx, (emotion, probs) in enumerate(self.emotion_history)`
(lines 147–165): add the recency weight to `emotion_counts[emotion]` and add
`probs[emotions.index(emotion)] * weight * confidence_boost` to
`emotion_total_probs[emotion]`, where the boost is 1.3 when that entry's
probability for its own label exceeds 0.7 and 1.0 otherwise. -/
def voteStep (acc : VoteAcc) (entry : ℕ × Emotion × Probs) : VoteAcc :=
  let i := entry.1
  let e := entry.2.1
  let p := entry.2.2
  let w := voteWeight i
  let boost : ℚ := if p e.idx > 7/10 then 13/10 else 1
  { keys := if e ∈ acc.keys then acc.keys else acc.keys ++ [e]
    counts := fun x => if x = e then acc.counts e + w else acc.counts x
    probSums := fun x =>
      if x = e then acc.probSums e + p e.idx * w * boost else acc.probSums x }

/-- The whole vote loop over the history. -/
def vote (h : List (Emotion × Probs)) : VoteAcc :=
  h.enum.foldl voteStep ⟨[], fun _ => 0, fun _ => 0⟩

/-- Insert `e` into a list already sorted by `key`, descending: `e` goes in
front of the first element with a strictly smaller key, hence behind every
element whose key ties with it. -/
def insertDesc (key : Emotion → ℚ) (e : Emotion) : List Emotion → List Emotion
  | [] => [e]
  | x :: xs => if key x < key e then e :: x :: xs else x :: insertDesc key e xs

/-- Stable descending sort by `key`: inserting the elements left to right
keeps the original order among equal keys, which is exactly the guarantee of
Python's stable `sorted(…, key=…, reverse=True)`. -/
def sortDescBy (key : Emotion → ℚ) (l : List Emotion) : List Emotion :=
  l.foldl (fun acc e => insertDesc key e acc) []

/-- Lines 167–192: sort the tallied emotions by weighted count, descending
(Python's `sorted(…, reverse=True)` is stable, so ties keep dict-insertion
order); take the most frequent and its weighted-average confidence; if the
runner-up is within a 1.1 frequency ratio and has strictly higher
weighted-average confidence, use the runner-up instead. -/
def winnerAndConf (v : VoteAcc) : Emotion × ℚ :=
  let sorted := sortDescBy v.counts v.keys
  match sorted with
  | [] => (.neutral, 0)
  | [e] => (e, v.probSums e / v.counts e)
  | e1 :: e2 :: _ =>
    let mostConf := v.probSums e1 / v.counts e1
    let secondConf := v.probSums e2 / v.counts e2
    if v.counts e1 / v.counts e2 < 11/10 ∧ secondConf > mostConf then
      (e2, secondConf)
    else (e1, mostConf)

/-- The switch threshold of lines 205–210: 1.3 to leave `neutral`, 1.1 to
enter `neutral`, 1.15 otherwise. -/
def switchThreshold (cur most : Emotion) : ℚ :=
  if cur = .neutral then 13/10
  else if most = .neutral then 11/10
  else 23/20

/-- Lines 225–243: once the committed emotion is settled, report it only if
the stability counter has reached 2; scale the confidence by
`min(1, stability/5)`; and if the result falls below the 0.25 minimum
confidence threshold (and is not `neutral`), report `('neutral', 0.4)`
instead.  The state `s` is returned unchanged by this tail. -/
def smoothFinish (s : SmootherState) (most : Emotion) (avgConf : ℚ) :
    SmootherState × Emotion × ℚ :=
  let smoothed := if 2 ≤ s.stability then most else s.current.getD .neutral
  let stabilityFactor : ℚ := min 1 ((s.stability : ℚ) / 5)
  let smoothedConf := avgConf * stabilityFactor
  if smoothedConf < 1/4 ∧ smoothed ≠ .neutral then (s, .neutral, 2/5)
  else (s, smoothed, smoothedConf)

/-- The vote tally once the incoming `(raw_emotion, probs)` pair has been
appended to the history (line 139 followed by lines 141–165). -/
def postVote (s : SmootherState) (e : Emotion) (p : Probs) : VoteAcc :=
  vote (dequePush8 s.history (e, p))

/-- The vote winner (`most_frequent_emotion` after the close-call check) for
the current call. -/
def voteWinner (s : SmootherState) (e : Emotion) (p : Probs) : Emotion :=
  (winnerAndConf (postVote s e p)).1

/-- The winner's weighted-average confidence (`avg_confidence`). -/
def voteWinnerConf (s : SmootherState) (e : Emotion) (p : Probs) : ℚ :=
  (winnerAndConf (postVote s e p)).2

/-- The condition of lines 198–216 under which `_apply_temporal_smoothing`
returns the committed emotion unchanged instead of switching: the committed
emotion exists (implicit — `cur` is it), its stability count is at least 3
and below 8, it has positive weighted count and confidence sum in the
current history, and the challenger's weighted-average confidence falls
short of the committed one's times the switch threshold. -/
abbrev noSwitchGuard (s : SmootherState) (v : VoteAcc) (cur most : Emotion)
    (avgConf : ℚ) : Prop :=
  3 ≤ s.stability ∧ 0 < v.counts cur ∧ 0 < v.probSums cur ∧
    avgConf < v.probSums cur / v.counts cur * switchThreshold cur most ∧
    s.stability < 8

/-- `ModelService._apply_temporal_smoothing(current_raw_emotion,
emotion_probs)` (lines 127–243), as a pure function from the smoothing state
and the two arguments to the new state and the returned
`(smoothed_emotion, smoothed_confidence)` pair.

Control flow of lines 194–223: if the committed emotion differs from the
vote winner and `noSwitchGuard` holds, return the committed emotion and its
weighted-average confidence at once, leaving `current_emotion` and
`emotion_stability_count` untouched; otherwise commit the winner and reset
the counter to 1.  If the winner already equals the committed emotion,
increment the counter. -/
def smoothStep (s : SmootherState) (e : Emotion) (p : Probs) :
    SmootherState × Emotion × ℚ :=
  if s.current = some (voteWinner s e p) then
    smoothFinish ⟨dequePush8 s.history (e, p), s.current, s.stability + 1⟩
      (voteWinner s e p) (voteWinnerConf s e p)
  else
    match s.current with
    | some cur =>
      if noSwitchGuard s (postVote s e p) cur (voteWinner s e p)
          (voteWinnerConf s e p) then
        (⟨dequePush8 s.history (e, p), some cur, s.stability⟩, cur,
          (postVote s e p).probSums cur / (postVote s e p).counts cur)
      else
        smoothFinish ⟨dequePush8 s.history (e, p), some (voteWinner s e p), 1⟩
          (voteWinner s e p) (voteWinnerConf s e p)
    | none =>
      smoothFinish ⟨dequePush8 s.history (e, p), some (voteWinner s e p), 1⟩
        (voteWinner s e p) (voteWinnerConf s e p)

/-! ## `model_service.py` — `predict_emotion` (lines 83–125)

The neural network itself is opaque; `predict_emotion` is embedded from the
point where the raw probability vector `emotion_probs` is available.  The
remaining state is the exponential moving average `self.ema_probs`
(`None` initially) with `self.ema_alpha = 0.3`. -/

structure ServiceState where
  smoother : SmootherState
  ema : Option Probs

def freshService : ServiceState := ⟨freshSmoother, none⟩

def emaAlpha : ℚ := 3/10

/-- `np.argmax` over the seven EMA probabilities: index of the first
occurrence of the maximum. -/
def argmax7 (p : Probs) : Fin 7 :=
  (List.finRange 7).foldl (fun best i => if p i > p best then i else best) 0

/-- One call of `predict_emotion(features, apply_smoothing=True)` starting
from the raw probability vector: update the EMA, take the argmax of the EMA
as the raw emotion, and apply temporal smoothing.  Returns the new state and
the `(smoothed_emotion, smoothed_confidence)` pair. -/
def predictStep (s : ServiceState) (rawProbs : Probs) :
    ServiceState × Emotion × ℚ :=
  let ema : Probs := match s.ema with
    | none => rawProbs
    | some prev => fun i => emaAlpha * rawProbs i + (1 - emaAlpha) * prev i
  let rawEmotion := emotionAt (argmax7 ema)
  let r := smoothStep s.smoother rawEmotion ema
  (⟨r.1, some ema⟩, r.2)

/-- Feed an ordered sequence of raw probability vectors into a session,
collecting the output `(label, confidence)` pairs. -/
def runService (s : ServiceState) (inputs : List Probs) :
    ServiceState × List (Emotion × ℚ) :=
  inputs.foldl
    (fun acc p =>
      let r := predictStep acc.1 p
      (r.1, acc.2 ++ [r.2]))
    (s, [])

/-- The output sequence produced by a fresh session on `inputs`. -/
def freshRunOutputs (inputs : List Probs) : List (Emotion × ℚ) :=
  (runService freshService inputs).2

/-- Feed a sequence of `(raw_emotion, probs)` arguments directly into
`_apply_temporal_smoothing`, collecting the outputs. -/
def runSmoother (s : SmootherState) (xs : List (Emotion × Probs)) :
    SmootherState × List (Emotion × ℚ) :=
  xs.foldl
    (fun acc x =>
      let r := smoothStep acc.1 x.1 x.2
      (r.1, acc.2 ++ [r.2]))
    (s, [])

/-! ## `audio_processor.py` — length fitting (lines 190–196 and 222–227)

`AudioProcessor` works at `sample_rate = 16000`; all the hard-coded sample
counts below are the Python `int(...)` values at that rate. -/

/-- The final length adjustment shared by `extract_features` (target 180) and
`extract_features_for_asr` (target 13): truncate when too long, zero-pad on
the right when too short. -/
def fitLength (target : ℕ) (features : List ℚ) : List ℚ :=
  if target < features.length then features.take target
  else if features.length < target then
    features ++ List.replicate (target - features.length) 0
  else features

/-! ## `audio_processor.py` — silence trimming (lines 102–108)

`librosa.effects.trim(audio_data, top_db=30)` with the librosa defaults
`frame_length=2048`, `hop_length=512`, `ref=np.max`: frame the signal
(centred, zero-padded by 1024 on each side) into mean-square energies, call a
frame non-silent when its level in dB relative to the maximum frame exceeds
`-top_db`, and slice the signal from the first non-silent frame's start to
the last non-silent frame's end.  In mean-square (power) terms the dB
condition `10*log10(mse/ref) > -top_db` is exactly
`max(mse, amin²) > max(ref, amin²) * 10^(-top_db/10)` with librosa's
amplitude floor `amin = 1e-5`, which is rational for `top_db = 30`
(`10^(-3) = 1/1000`) and `top_db = 40` (`1/10000`). -/

/-- Square of librosa's `amin = 1e-5` amplitude floor. -/
def aminSq : ℚ := 1 / 10^10

/-- Number of rms frames of a signal of length `n` (centred framing:
`1 + (n + 2048 - 2048) / 512`). -/
def rmsFrameCount (n : ℕ) : ℕ := 1 + n / 512

/-- Mean-square energy of rms frame `j` (the square of `librosa.feature.rms`
with `frame_length=2048`, `hop_length=512`, zero padding of 1024 samples on
each side). -/
def mseFrame (y : List ℚ) (j : ℕ) : ℚ :=
  let padded := List.replicate 1024 (0:ℚ) ++ y ++ List.replicate 1024 0
  (((padded.drop (512 * j)).take 2048).map (fun x => x^2)).sum / 2048

/-- `np.max` over the frame energies (`ref=np.max` in `librosa.effects.trim`). -/
def refMse (y : List ℚ) : ℚ :=
  match (List.range (rmsFrameCount y.length)).map (mseFrame y) with
  | [] => 0
  | m :: ms => ms.foldl max m

/-- Indices of the non-silent frames at power threshold ratio `thr`
(`thr = 10^(-top_db/10)`). -/
def trimNonSilent (thr : ℚ) (y : List ℚ) : List ℕ :=
  (List.range (rmsFrameCount y.length)).filter
    (fun j => decide (max (refMse y) aminSq * thr < max (mseFrame y j) aminSq))

/-- `librosa.effects.trim` at power threshold ratio `thr`: slice from
`512 * first_nonsilent` to `min(len(y), 512 * (last_nonsilent + 1))`; an
entirely silent signal trims to the empty slice. -/
def librosaTrim (thr : ℚ) (y : List ℚ) : List ℚ :=
  let ns := trimNonSilent thr y
  match ns, ns.getLast? with
  | j0 :: _, some jl =>
    let start := 512 * j0
    let stop := min y.length (512 * (jl + 1))
    (y.drop start).take (stop - start)
  | _, _ => []

/-- Power ratio for the `top_db=30` gate that `extract_features` actually
passes to `librosa.effects.trim` (line 103): `10^(-30/10) = 1/1000`. -/
def trimRatio30 : ℚ := 1/1000

/-- The trimming step at the head of `extract_features` (lines 102–108):
trim, but fall back to the original signal when the trimmed one is shorter
than half of it (`len(trimmed_audio) < len(audio_data) * 0.5`). -/
def preprocess (y : List ℚ) : List ℚ :=
  let trimmed := librosaTrim trimRatio30 y
  if ((trimmed.length : ℚ) < (y.length : ℚ) * (1/2)) then y else trimmed

/-- Modelled from the spec's words for claim C9, for comparison with
`preprocess`: the same trimming step but with a top-40dB gate
(`10^(-40/10) = 1/10000`), which is what the claim asserts the code uses. -/
def specPreprocess40 (y : List ℚ) : List ℚ :=
  let trimmed := librosaTrim (1/10000) y
  if ((trimmed.length : ℚ) < (y.length : ℚ) * (1/2)) then y else trimmed

/-- `extract_features` (lines 92–197): trim/fall-back preprocessing, then an
opaque librosa feature pipeline (MFCC/chroma/mel/contrast/zcr/rms/pitch
statistics, concatenated), here the parameter `rawFeat`, then the fit to
exactly 180 entries. -/
def extractFeatures (rawFeat : List ℚ → List ℚ) (y : List ℚ) : List ℚ :=
  fitLength 180 (rawFeat (preprocess y))

/-- `extract_features_for_asr` (lines 199–233): an opaque 13-coefficient MFCC
mean (the parameter `mfccMeans`, which may raise), fitted to exactly 13
entries; any exception is caught and replaced by `np.zeros(13)`. -/
def extractFeaturesForASR (mfccMeans : List ℚ → Except String (List ℚ))
    (y : List ℚ) : List ℚ :=
  match mfccMeans y with
  | .error _ => List.replicate 13 0
  | .ok f => fitLength 13 f

/-! ## `audio_processor.py` — `detect_speech` (lines 235–283)

`librosa.util.frame(audio_data, frame_length=400, hop_length=160)` (25 ms
frames, 10 ms hop at 16 kHz) **raises** `ParameterError` when the input is
shorter than one frame; `detect_speech` does not catch it. -/

/-- `self.speech_energy_threshold = 0.015`. -/
def speechEnergyThreshold : ℚ := 3/200

/-- `librosa.util.frame`: error when the input is shorter than one frame,
otherwise the list of `1 + (n - frame_length) / hop_length` frames. -/
def librosaFrame (frameLen hop : ℕ) (y : List ℚ) :
    Except String (List (List ℚ)) :=
  if y.length < frameLen then .error "Input is too short"
  else .ok ((List.range (1 + (y.length - frameLen) / hop)).map
    (fun j => (y.drop (j * hop)).take frameLen))

/-- One frame of `librosa.feature.zero_crossing_rate`: clip magnitudes below
the `1e-10` threshold to zero, mark a crossing wherever the sign bit
(`x < 0`) changes from one sample to the next (the first sample never
counts), and average over the frame length. -/
def zcrFrame (frame : List ℚ) : ℚ :=
  let clipped := frame.map (fun x => if |x| ≤ (1:ℚ)/10^10 then 0 else x)
  let signs := clipped.map (fun x => decide (x < 0))
  ((signs.zip signs.tail).countP (fun s => s.1 != s.2) : ℚ) / 400

/-- `librosa.feature.zero_crossing_rate(y, frame_length=400, hop_length=160)`:
centred framing with edge padding of 200 samples on each side, one rate per
frame. -/
def zeroCrossingRates (y : List ℚ) : List ℚ :=
  let padded :=
    List.replicate 200 (y.headD 0) ++ y ++ List.replicate 200 (y.getLastD 0)
  (List.range (1 + y.length / 160)).map
    (fun j => zcrFrame ((padded.drop (160 * j)).take 400))

/-- `detect_speech(audio_data, energy_threshold)` (lines 235–283).  Frame the
signal (this raises on inputs shorter than 400 samples), compute per-frame
energies and zero-crossing rates, and decide speech when more than 15% of
frames exceed the energy threshold, or more than 10% do and more than 5% of
frames have a zero-crossing rate above 0.1.  The `len(frame_energy) == 0`
fallback to a mean-absolute-amplitude check is kept from the source even
though framing never returns zero frames. -/
def detectSpeech (energyThreshold : ℚ) (y : List ℚ) : Except String Bool :=
  match librosaFrame 400 160 y with
  | .error e => .error e
  | .ok frames =>
    let frameEnergy := frames.map (fun f => (f.map (fun x => x^2)).sum / 400)
    let zcr := zeroCrossingRates y
    let speechFrames := frameEnergy.countP (fun en => decide (energyThreshold < en))
    let highZcrFrames := zcr.countP (fun z => decide ((1:ℚ)/10 < z))
    if 0 < frameEnergy.length then
      let speechPercentage := (speechFrames : ℚ) / (frameEnergy.length : ℚ)
      let zcrRatio :=
        if 0 < zcr.length then (highZcrFrames : ℚ) / (zcr.length : ℚ) else 0
      .ok (decide (3/20 < speechPercentage) ||
        (decide ((1:ℚ)/10 < speechPercentage) && decide ((1:ℚ)/20 < zcrRatio)))
    else
      .ok (decide (energyThreshold < (y.map (fun x => |x|)).sum / (y.length : ℚ)))

/-! ## `audio_processor.py` — `calculate_speech_rate` (lines 285–356)

The pipeline: absolute amplitude, smoothing by `np.convolve` with a 320-tap
box window in `'same'` mode (`np.convolve` raises on an empty input),
adaptive peak picking with `scipy.signal.find_peaks(height=max(0.05,
mean + 0.5*std), distance=1600)`, silence-run accounting at threshold 0.008,
and the final `peaks / speech_duration` with a `0.0` fallback.  The
`mean + 0.5*std ≤ x` comparison (`std = sqrt(variance)` is irrational) is
encoded exactly over ℚ as `mean ≤ x ∧ variance ≤ 4*(x - mean)^2`. -/

/-- `np.convolve(a, v, mode='same')`: errors on an empty input, otherwise
the central `max(M, N)` entries of the full convolution. -/
def npConvolveSame (a v : List ℚ) : Except String (List ℚ) :=
  if a.length = 0 then .error "a cannot be empty"
  else if v.length = 0 then .error "v cannot be empty"
  else
    let M := a.length
    let N := v.length
    let full := (List.range (M + N - 1)).map (fun k =>
      ((List.range M).map (fun i =>
        if i ≤ k ∧ k - i < N then a.getD i 0 * v.getD (k - i) 0 else 0)).sum)
    .ok ((full.drop ((min M N - 1) / 2)).take (max M N))

/-- End of a plateau of value `v` in scipy's local-maxima scan: advance from
`i` while the value stays `v` and the index stays left of the last sample. -/
def plateauEnd (x : List ℚ) (v : ℚ) : ℕ → ℕ → ℕ
  | 0, i => i
  | fuel+1, i =>
    if i < x.length - 1 ∧ x.getD i 0 = v then plateauEnd x v fuel (i + 1) else i

/-- scipy's `_local_maxima_1d` scan from interior index `i`: a sample (or
plateau midpoint) strictly above both neighbours is a candidate peak; after a
hit the scan resumes past the plateau. -/
def localMaximaAux (x : List ℚ) : ℕ → ℕ → List ℕ
  | 0, _ => []
  | fuel+1, i =>
    if i < x.length - 1 then
      if x.getD (i-1) 0 < x.getD i 0 then
        let ia := plateauEnd x (x.getD i 0) x.length (i + 1)
        if x.getD ia 0 < x.getD i 0 then
          (i + ia - 1) / 2 :: localMaximaAux x fuel (ia + 1)
        else localMaximaAux x fuel (i + 1)
      else localMaximaAux x fuel (i + 1)
    else []

/-- All interior local maxima (scipy `_local_maxima_1d`). -/
def localMaxima (x : List ℚ) : List ℕ := localMaximaAux x x.length 1

/-- The `find_peaks` height condition `x ≥ max(0.05, mean + 0.5*std)`,
encoded rationally through the variance (see the section comment). -/
def heightOkB (mean variance x : ℚ) : Bool :=
  decide ((1:ℚ)/20 ≤ x) && decide (mean ≤ x) && decide (variance ≤ 4 * (x - mean)^2)

/-- Insert index `i` into an index list sorted ascending by `vals`. -/
def insertAscIdx (vals : List ℚ) (i : ℕ) : List ℕ → List ℕ
  | [] => [i]
  | j :: js =>
    if vals.getD i 0 < vals.getD j 0 then i :: j :: js else j :: insertAscIdx vals i js

/-- `np.argsort` of the peak priorities, ascending (determinised as a stable
sort; tie order is unspecified in NumPy's quicksort and no property proved
here depends on it). -/
def argsortAsc (vals : List ℚ) : List ℕ :=
  (List.range vals.length).foldl (fun acc i => insertAscIdx vals i acc) []

/-- Leftward sweep of scipy's `_select_by_peak_distance`: walking down from
index `k-1`, clear `keep` while the position gap to peak `pj` stays below
`dist`. -/
def markLeft (peaks : List ℕ) (dist pj : ℕ) : ℕ → List Bool → List Bool
  | 0, keep => keep
  | k+1, keep =>
    if pj - peaks.getD k 0 < dist then markLeft peaks dist pj k (keep.set k false)
    else keep

/-- Rightward sweep of scipy's `_select_by_peak_distance`. -/
def markRight (peaks : List ℕ) (dist pj : ℕ) : ℕ → ℕ → List Bool → List Bool
  | 0, _, keep => keep
  | fuel+1, k, keep =>
    if k < peaks.length ∧ peaks.getD k 0 - pj < dist then
      markRight peaks dist pj fuel (k+1) (keep.set k false)
    else keep

/-- scipy `_select_by_peak_distance`: visit the peaks from highest to lowest
priority; each survivor clears every not-yet-processed peak within `dist` of
it. -/
def selectByPeakDistance (peaks : List ℕ) (priority : List ℚ) (dist : ℕ) :
    List Bool :=
  (argsortAsc priority).reverse.foldl
    (fun keep j =>
      if keep.getD j false then
        let pj := peaks.getD j 0
        markRight peaks dist pj peaks.length (j+1) (markLeft peaks dist pj j keep)
      else keep)
    (List.replicate peaks.length true)

/-- `peaks[keep]`. -/
def filterByKeep (peaks : List ℕ) (keep : List Bool) : List ℕ :=
  ((peaks.zip keep).filter (fun pk => pk.2)).map (fun pk => pk.1)

/-- `scipy.signal.find_peaks(x, height=…, distance=…)`: local maxima, then
the height filter, then the distance filter. -/
def findPeaks (x : List ℚ) (mean variance : ℚ) (dist : ℕ) : List ℕ :=
  let withHeight := (localMaxima x).filter (fun i => heightOkB mean variance (x.getD i 0))
  let keep := selectByPeakDistance withHeight
    (withHeight.map (fun i => x.getD i 0)) dist
  filterByKeep withHeight keep

/-- The smoothed absolute envelope: `np.convolve(np.abs(audio),
np.ones(320)/320, mode='same')` (20 ms box window at 16 kHz). -/
def smoothedEnergy (y : List ℚ) : Except String (List ℚ) :=
  npConvolveSame (y.map (fun x => |x|)) (List.replicate 320 ((1:ℚ)/320))

/-- `np.mean(energy_smooth)`. -/
def energyMean (es : List ℚ) : ℚ := es.sum / (es.length : ℚ)

/-- `np.std(energy_smooth) ** 2` (the variance; the height condition uses it
through `heightOkB`). -/
def energyVariance (es : List ℚ) : ℚ :=
  (es.map (fun x => (x - energyMean es)^2)).sum / (es.length : ℚ)

/-- The syllable peaks: `find_peaks(energy_smooth,
height=max(0.05, mean + 0.5*std), distance=int(16000*0.1))`. -/
def speechPeaks (es : List ℚ) : List ℕ :=
  findPeaks es (energyMean es) (energyVariance es) 1600

/-- Lengths of the maximal runs of consecutive silent frames (the grouping
loop of lines 327–339). -/
def silenceRuns : List Bool → ℕ → List ℕ
  | [], cur => if cur = 0 then [] else [cur]
  | b :: bs, cur =>
    if b then silenceRuns bs (cur + 1)
    else if cur = 0 then silenceRuns bs 0 else cur :: silenceRuns bs 0

/-- `long_silence_frames`: total length of the silence runs (threshold
`silence_energy_threshold = 0.008`) of at least `int(0.2*16000) = 3200`
frames. -/
def longSilenceFrames (es : List ℚ) : ℕ :=
  ((silenceRuns (es.map (fun x => decide (x < (1:ℚ)/125))) 0).filter
    (fun g => decide (3200 ≤ g))).sum

/-- `speech_duration = (len(audio) - long_silence_frames) / 16000`, in
seconds. -/
def speechDuration (y es : List ℚ) : ℚ :=
  (((y.length : ℤ) - (longSilenceFrames es : ℤ) : ℤ) : ℚ) / 16000

/-- `calculate_speech_rate(audio_data)` (lines 285–356): syllable peaks per
second of speech, `0.0` when there are no peaks or no positive duration. -/
def calculateSpeechRate (y : List ℚ) : Except String ℚ :=
  match smoothedEnergy y with
  | .error e => .error e
  | .ok es =>
    .ok (if 0 < speechDuration y es ∧ 0 < (speechPeaks es).length then
      ((speechPeaks es).length : ℚ) / speechDuration y es
    else 0)

/-! ## `api/inference_service.py` — the remote fallback chain

`InferenceService.process_audio` (lines 45–128) and
`_process_with_rest_api` (lines 198–310); `external_inference_handler.py`'s
`DataStreamProcessor._standard_processing` (lines 139–235) has the same
retry structure.  The network is embedded as an oracle giving the outcome of
each attempt; `requests.Response.ok` is `not (400 <= status_code < 600)`. -/

/-- One `{"label": …, "score": …}` entry of a classification result. -/
structure LabelScore where
  label : String
  score : ℚ
deriving DecidableEq

/-- The `_meta` tag attached to degraded results. -/
structure FallbackMeta where
  usingFallback : Bool
  fallbackReason : String
deriving DecidableEq

/-- The dictionary returned by `process_audio` / `_process_with_rest_api`:
a success payload (with the optional `_meta` tag), an API error carrying the
upstream status code and response body, or an input-validation error. -/
inductive ApiResult where
  | success (result : List LabelScore) (meta : Option FallbackMeta)
  | apiError (status : ℕ) (message errorText : String) (meta : FallbackMeta)
  | inputError (message : String)
deriving DecidableEq

/-- What one `requests.post` attempt comes back with: an HTTP response (with
its parsed JSON payload), a timeout, or a connection error. -/
inductive AttemptOutcome where
  | response (status : ℕ) (body : String) (payload : List LabelScore)
  | timeout
  | connError (message : String)

/-- `requests.Response.ok`: true unless `raise_for_status` would raise,
i.e. unless `400 <= status_code < 600`. -/
def responseOk (status : ℕ) : Bool := !(decide (400 ≤ status) && decide (status < 600))

/-- The fixed synthetic distribution returned when every retry is exhausted
(lines 296–301). -/
def fallbackResult : List LabelScore :=
  [⟨"neutral", 8/10⟩, ⟨"happy", 1/10⟩, ⟨"sad", 1/20⟩, ⟨"angry", 1/20⟩]

/-- The retry loop of `_process_with_rest_api` (lines 224–310).  `remaining`
is `max_retries - retry_count` (the loop guard `retry_count < max_retries`),
`attempt` the index handed to the oracle.  A response with `ok` status
returns its payload; 503 retries; any other status returns at once with the
upstream status code and body; timeouts and connection errors retry.  When
the attempts run out, the fixed synthetic distribution is returned tagged
with `_meta.using_fallback = True`. -/
def restGo (oracle : ℕ → AttemptOutcome) (maxRetries : ℕ) :
    ℕ → ℕ → Option String → ApiResult
  | 0, _, lastError =>
    .success fallbackResult (some ⟨true,
      "Service unavailable after " ++ toString maxRetries ++ " attempts: " ++
        lastError.getD "None"⟩)
  | remaining+1, attempt, _lastError =>
    match oracle attempt with
    | .response st body payload =>
      if responseOk st then .success payload none
      else if st = 503 then restGo oracle maxRetries remaining (attempt + 1) (some body)
      else
        .apiError st ("API error: " ++ toString st) body
          ⟨true, "API error: " ++ toString st⟩
    | .timeout =>
      restGo oracle maxRetries remaining (attempt + 1)
        (some "Request timed out after 30 seconds")
    | .connError m => restGo oracle maxRetries remaining (attempt + 1) (some m)

/-- `InferenceService._process_with_rest_api` with its retry budget. -/
def processWithRestApi (oracle : ℕ → AttemptOutcome) (maxRetries : ℕ) :
    ApiResult :=
  restGo oracle maxRetries maxRetries 0 none

/-- `InferenceService.process_audio` (lines 45–128): validate the inputs,
try the local transformers pipeline when available (`localResult` is its
outcome: an exception, or the classification list it produced — the Python
`if result:` also skips an empty list), and otherwise run the REST retry
chain with the default `max_retries = 3`. -/
def processAudio (transformersAvailable : Bool)
    (localResult : Except String (List LabelScore))
    (oracle : ℕ → AttemptOutcome)
    (audioPresent apiKeyPresent : Bool) : ApiResult :=
  if !audioPresent then .inputError "Missing required audio data"
  else if !apiKeyPresent then .inputError "Missing API key"
  else
    match transformersAvailable, localResult with
    | true, .ok r => if r.isEmpty then processWithRestApi oracle 3 else .success r none
    | true, .error _ => processWithRestApi oracle 3
    | false, _ => processWithRestApi oracle 3

/-! ## `asr_service.py` — `ASRService.process_audio` (lines 108–241)

The loaded torch module is opaque (parameter `model`, which may raise), and
`torch.softmax` needs the exponential, so the embedding is parametric in
`expF` as well; no claim depends on either.  The whole body sits in a
`try/except` whose handler returns the fixed default characteristics. -/

structure CategoryResult where
  category : String
  confidence : ℚ
deriving DecidableEq

structure SpeechCharacteristics where
  fluency : CategoryResult
  tempo : CategoryResult
  pronunciation : CategoryResult
deriving DecidableEq

def fluencyCategories : List String :=
  ["High Fluency", "Medium Fluency", "Low Fluency"]

def tempoCategories : List String :=
  ["Fast Tempo", "Medium Tempo", "Slow Tempo"]

def pronunciationCategories : List String :=
  ["Clear Pronunciation", "Unclear Pronunciation"]

/-- The fallback returned by the `except` handler (lines 237–241). -/
def asrDefault : SpeechCharacteristics :=
  ⟨⟨"Medium Fluency", 1/2⟩, ⟨"Medium Tempo", 1/2⟩, ⟨"Clear Pronunciation", 1/2⟩⟩

/-- `torch.argmax` over a score row (first index of the maximum). -/
def argmaxList (l : List ℚ) : ℕ :=
  (List.range l.length).foldl
    (fun best i => if l.getD best 0 < l.getD i 0 then i else best) 0

/-- `torch.softmax(scores)[idx]`, parametric in the exponential. -/
def softmaxAt (expF : ℚ → ℚ) (l : List ℚ) (i : ℕ) : ℚ :=
  expF (l.getD i 0) / (l.map expF).sum

/-- Category slice selection of lines 183–204 (single-tensor branch): the
first three outputs are fluency scores, outputs 3–5 tempo (with the 5-output
and 7-output partial fillings of zero-initialised rows), outputs 6–7
pronunciation. -/
def asrScores (out : List ℚ) : List ℚ × List ℚ × List ℚ :=
  let n := out.length
  let fluencyScores := if 3 ≤ n then out.take 3 else [0, 0, 0]
  let tempoScores :=
    if 6 ≤ n then (out.drop 3).take 3
    else if 5 ≤ n then [out.getD 3 0, out.getD 4 0, 0]
    else [0, 0, 0]
  let pronunciationScores :=
    if 8 ≤ n then (out.drop 6).take 2
    else if n = 7 then [out.getD 6 0, 0]
    else [0, 0]
  (fluencyScores, tempoScores, pronunciationScores)

/-- `ASRService.process_audio(features)`: reject an empty feature array (the
raised `ValueError` lands in the handler), fit to exactly 13 features, run
the model (an exception lands in the handler), slice the output row into the
three score groups, and report the argmax category of each with its softmax
confidence; the category index is clamped with `min(idx, len(cats)-1)`. -/
def asrProcessAudio (model : List ℚ → Except String (List ℚ))
    (expF : ℚ → ℚ) (features : List ℚ) : SpeechCharacteristics :=
  if features.length = 0 then asrDefault
  else
    match model (fitLength 13 features) with
    | .error _ => asrDefault
    | .ok out =>
      let s := asrScores out
      let fi := argmaxList s.1
      let ti := argmaxList s.2.1
      let pri := argmaxList s.2.2
      { fluency := ⟨fluencyCategories.getD (min fi (fluencyCategories.length - 1)) "",
          softmaxAt expF s.1 fi⟩
        tempo := ⟨tempoCategories.getD (min ti (tempoCategories.length - 1)) "",
          softmaxAt expF s.2.1 ti⟩
        pronunciation :=
          ⟨pronunciationCategories.getD (min pri (pronunciationCategories.length - 1)) "",
            softmaxAt expF s.2.2 pri⟩ }

/-! ## Spec-side definitions and concrete probe inputs -/

/-- Modelled from the spec's words for claim C4, for comparison with
`voteWeight`: the claimed recency weight `(1 + 0.6*i)^2`. -/
def specVoteWeight (idx : ℕ) : ℚ := (1 + (idx : ℚ) * (6/10))^2

/-- A probability vector concentrated on `happiness` (0.5, below the 0.7
boost threshold). -/
def pHappy : Probs := fun i => if i = Emotion.happiness.idx then 1/2 else 1/14

/-- A probability vector concentrated on `anger` (0.9, above the 0.7 boost
threshold). -/
def pAnger : Probs := fun i => if i = Emotion.anger.idx then 9/10 else 1/60

/-- Eight `anger` calls followed by one `happiness` call. -/
def c3Inputs : List (Emotion × Probs) :=
  List.replicate 8 (Emotion.anger, pAnger) ++ [(Emotion.happiness, pHappy)]

/-- The smoother state after feeding `c3Inputs` to a fresh smoother:
committed to `anger` with stability count 9. -/
def c3State : SmootherState := (runSmoother freshSmoother c3Inputs).1

/-- The concrete 2048-sample waveform refuting the claimed top-40dB trim
gate: a unit spike at sample 0 and a small `1/45` spike at sample 2000.  The
small spike's frames sit between the 40 dB and 30 dB thresholds relative to
the loudest frame, so the 30 dB gate of the code trims them away while the
claimed 40 dB gate would keep them. -/
def c9Audio : List ℚ :=
  [1] ++ List.replicate 1999 0 ++ [1/45] ++ List.replicate 47 0

/-! ## Theorems -/

unseal Rat.add Rat.mul Rat.inv Rat.sub

/-- The tail of `_apply_temporal_smoothing` never changes the state it is
handed. -/
theorem smoothFinish_fst (s : SmootherState) (most : Emotion) (avgConf : ℚ) :
    (smoothFinish s most avgConf).1 = s := by
  unfold smoothFinish
  dsimp only
  split <;> split <;> rfl

/-- The truncate-or-pad adjustment always produces exactly the target
length. -/
theorem fitLength_length (target : ℕ) (features : List ℚ) :
    (fitLength target features).length = target := by
  unfold fitLength
  split
  · simp [List.length_take]
    omega
  · split
    · simp [List.length_append, List.length_replicate]
      omega
    · omega

/-- C2.  For every input, the emotion feature extractor returns exactly 180
entries and the auxiliary (ASR) extractor exactly 13, whatever lengths the
raw librosa feature pipelines (`rawFeat`, `mfccMeans`) produce and even when
the ASR MFCC step raises: longer raw vectors are truncated, shorter ones
zero-padded, and both paths are total. -/
theorem extractor_lengths_fixed (rawFeat : List ℚ → List ℚ)
    (mfccMeans : List ℚ → Except String (List ℚ)) (y z : List ℚ) :
    (extractFeatures rawFeat y).length = 180 ∧
    (extractFeaturesForASR mfccMeans z).length = 13 := by
  constructor
  · exact fitLength_length 180 _
  · unfold extractFeaturesForASR
    match mfccMeans z with
    | .error e => simp
    | .ok f => exact fitLength_length 13 f

/-- C1.  The smoothing update is a pure function of the call history: two
independently created fresh sessions fed the same ordered sequence of raw
probability vectors produce the same output sequence of
`(label, confidence)` pairs. -/
theorem smoother_deterministic (xs ys : List Probs) (h : xs = ys) :
    freshRunOutputs xs = freshRunOutputs ys := by rw [h]

/-- Witness for `smoother_deterministic` at a concrete two-call input. -/
theorem smoother_deterministic_witness :
    [pHappy, pAnger] = [pHappy, pAnger] ∧
    freshRunOutputs [pHappy, pAnger] = freshRunOutputs [pHappy, pAnger] :=
  ⟨rfl, smoother_deterministic [pHappy, pAnger] [pHappy, pAnger] rfl⟩

/-- Evaluating the counts dict after one vote-loop iteration. -/
theorem voteStep_counts (acc : VoteAcc) (n : ℕ) (x : Emotion × Probs) (e : Emotion) :
    (voteStep acc (n, x)).counts e =
      if e = x.1 then acc.counts x.1 + voteWeight n else acc.counts e := rfl

/-- Evaluating the confidence-sum dict after one vote-loop iteration. -/
theorem voteStep_probSums (acc : VoteAcc) (n : ℕ) (x : Emotion × Probs) (e : Emotion) :
    (voteStep acc (n, x)).probSums e =
      if e = x.1 then
        acc.probSums x.1 + x.2 x.1.idx * voteWeight n *
          (if x.2 x.1.idx > 7/10 then 13/10 else 1)
      else acc.probSums e := rfl

/-- The vote fold, started anywhere, adds to the accumulator exactly the
indexed sums of recency weights (for the counts) and of boosted weighted
probabilities (for the confidence sums). -/
theorem voteStep_foldl_closed_form (e : Emotion) (l : List (Emotion × Probs)) :
    ∀ (n : ℕ) (acc : VoteAcc),
      ((List.enumFrom n l).foldl voteStep acc).counts e =
        acc.counts e +
          (((List.enumFrom n l).filter (fun x => x.2.1 = e)).map
            (fun x => voteWeight x.1)).sum ∧
      ((List.enumFrom n l).foldl voteStep acc).probSums e =
        acc.probSums e +
          (((List.enumFrom n l).filter (fun x => x.2.1 = e)).map
            (fun x => x.2.2 e.idx * voteWeight x.1 *
              (if x.2.2 e.idx > 7/10 then 13/10 else 1))).sum := by
  induction l with
  | nil => intro n acc; simp
  | cons x xs ih =>
    intro n acc
    rw [List.enumFrom_cons, List.foldl_cons, List.filter_cons]
    have hstep := ih (n + 1) (voteStep acc (n, x))
    by_cases hx : x.1 = e
    · subst hx
      rw [if_pos (by simp), List.map_cons, List.sum_cons]
      refine ⟨?_, ?_⟩
      · rw [hstep.1, voteStep_counts, if_pos rfl]
        ring
      · rw [hstep.2, voteStep_probSums, if_pos rfl]
        simp only [List.map_cons, List.sum_cons]
        ring
    · rw [if_neg (by simpa using hx)]
      refine ⟨?_, ?_⟩
      · rw [hstep.1, voteStep_counts, if_neg (fun hh => hx hh.symm)]
      · rw [hstep.2, voteStep_probSums, if_neg (fun hh => hx hh.symm)]

/-- C4 (amended: the recency weight is `1 + (0.6*i)^2`, not `(1 + 0.6*i)^2`).
For every history, the weighted vote gives each entry at index `i` (0 =
oldest) the weight `1 + (0.6*i)^2` towards its label's count, and adds that
entry's probability for the label times the weight — further multiplied by
1.3 exactly when that probability exceeds 0.7 — to the label's confidence
sum. -/
theorem vote_weight_closed_form (h : List (Emotion × Probs)) (e : Emotion) :
    (vote h).counts e =
      ((h.enum.filter (fun x => x.2.1 = e)).map (fun x => voteWeight x.1)).sum ∧
    (vote h).probSums e =
      ((h.enum.filter (fun x => x.2.1 = e)).map
        (fun x => x.2.2 e.idx * voteWeight x.1 *
          (if x.2.2 e.idx > 7/10 then 13/10 else 1))).sum := by
  have hh := voteStep_foldl_closed_form e h 0 ⟨[], fun _ => 0, fun _ => 0⟩
  unfold vote
  simp only [List.enum_eq_enumFrom]
  exact ⟨by rw [hh.1, zero_add], by rw [hh.2, zero_add]⟩

/-- Counterexample to C4 as stated: in the two-entry history produced by two
`happiness` calls, the code's weighted count of `happiness` is
`1 + (0.6*0)^2 + (1 + (0.6*1)^2) = 59/25`, not the
`(1+0.6*0)^2 + (1+0.6*1)^2 = 89/25` that the claimed weight `(1 + 0.6*i)^2`
demands. -/
theorem vote_weight_claim_counterexample :
    (vote [(Emotion.happiness, pHappy), (Emotion.happiness, pHappy)]).counts
        Emotion.happiness = voteWeight 0 + voteWeight 1 ∧
    voteWeight 1 = 34/25 ∧ specVoteWeight 1 = 64/25 ∧
    (vote [(Emotion.happiness, pHappy), (Emotion.happiness, pHappy)]).counts
        Emotion.happiness ≠ specVoteWeight 0 + specVoteWeight 1 := by decide

/-- C3 (amended).  With a committed label `cur`, one smoothing call behaves
as follows.  If the vote winner equals `cur`, the stability counter is
incremented.  If the winner differs, the label switches (and the counter
resets to 1) unless `noSwitchGuard` holds — i.e. unless the stability count
is in `[3, 8)`, the committed label has positive weighted count and
confidence sum in the current history, and the challenger's weighted-average
confidence is below the committed label's times the switch multiplier (1.3
when leaving `neutral`, 1.1 when entering `neutral`, 1.15 otherwise).  In
particular a switch also happens once the stability count reaches 8, or when
the committed label has dropped out of the history, or when the challenger
merely ties the threshold.  On a no-switch call the counter stays unchanged
(it is not incremented), and the committed label is returned with its own
weighted-average confidence. -/
theorem hysteresis_switch_characterisation (s : SmootherState) (e : Emotion)
    (p : Probs) (cur : Emotion) (hc : s.current = some cur) :
    (cur = voteWinner s e p →
      (smoothStep s e p).1.current = some cur ∧
      (smoothStep s e p).1.stability = s.stability + 1) ∧
    (cur ≠ voteWinner s e p →
      ¬ noSwitchGuard s (postVote s e p) cur (voteWinner s e p)
          (voteWinnerConf s e p) →
      (smoothStep s e p).1.current = some (voteWinner s e p) ∧
      (smoothStep s e p).1.stability = 1) ∧
    (cur ≠ voteWinner s e p →
      noSwitchGuard s (postVote s e p) cur (voteWinner s e p)
          (voteWinnerConf s e p) →
      (smoothStep s e p).1.current = some cur ∧
      (smoothStep s e p).1.stability = s.stability ∧
      (smoothStep s e p).2 =
        (cur, (postVote s e p).probSums cur / (postVote s e p).counts cur)) := by
  refine ⟨?_, ?_, ?_⟩
  · intro heq
    have hcw : s.current = some (voteWinner s e p) := by rw [hc, heq]
    unfold smoothStep
    rw [if_pos hcw, smoothFinish_fst]
    exact ⟨by rw [hc, heq], rfl⟩
  · intro hne hng
    have hcw : ¬ s.current = some (voteWinner s e p) := by
      rw [hc]
      simpa using hne
    unfold smoothStep
    rw [if_neg hcw, hc]
    dsimp only
    rw [if_neg hng, smoothFinish_fst]
    exact ⟨rfl, rfl⟩
  · intro hne hng
    have hcw : ¬ s.current = some (voteWinner s e p) := by
      rw [hc]
      simpa using hne
    unfold smoothStep
    rw [if_neg hcw, hc]
    dsimp only
    rw [if_pos hng]
    exact ⟨rfl, rfl, rfl⟩

/-- Witness for `hysteresis_switch_characterisation`: from a state committed
to `anger` with stability count 0 (< 3), a `happiness` call wins the vote
and switches the committed label at once, resetting the counter to 1. -/
theorem hysteresis_switch_witness :
    (smoothStep ⟨[], some Emotion.anger, 0⟩ Emotion.happiness pHappy).1.current
        = some (voteWinner ⟨[], some Emotion.anger, 0⟩ Emotion.happiness pHappy) ∧
    (smoothStep ⟨[], some Emotion.anger, 0⟩ Emotion.happiness pHappy).1.stability = 1 :=
  (hysteresis_switch_characterisation ⟨[], some Emotion.anger, 0⟩
    Emotion.happiness pHappy Emotion.anger rfl).2.1 (by decide) (by decide)

/-- Counterexample to C3 as stated.  After eight `anger` calls and one
`happiness` call, the smoother is committed to `anger` with stability count
9 (≥ 3), and on the next `happiness` call the weighted-vote winner is
`happiness`, whose weighted-average confidence (1/2) does **not** exceed the
committed label's (117/100) times the 1.15 multiplier — so by the claim the
label must not switch; the code switches anyway (the `stability < 8`
carve-out) and resets the counter to 1. -/
theorem hysteresis_claim_counterexample :
    c3State.current = some Emotion.anger ∧
    3 ≤ c3State.stability ∧
    voteWinner c3State Emotion.happiness pHappy = Emotion.happiness ∧
    voteWinnerConf c3State Emotion.happiness pHappy = 1/2 ∧
    (postVote c3State Emotion.happiness pHappy).probSums Emotion.anger /
        (postVote c3State Emotion.happiness pHappy).counts Emotion.anger = 117/100 ∧
    ¬ ((postVote c3State Emotion.happiness pHappy).probSums Emotion.anger /
          (postVote c3State Emotion.happiness pHappy).counts Emotion.anger *
          switchThreshold Emotion.anger Emotion.happiness <
        voteWinnerConf c3State Emotion.happiness pHappy) ∧
    (smoothStep c3State Emotion.happiness pHappy).1.current = some Emotion.happiness ∧
    (smoothStep c3State Emotion.happiness pHappy).1.stability = 1 := by decide

set_option maxRecDepth 4000 in
/-- C5 (the claim is right, the code is wrong).  `detect_speech` evaluates
`librosa.util.frame` outside any `try`, so on the empty waveform — and on any
waveform shorter than one 25 ms frame (400 samples at 16 kHz) — the
`ParameterError` propagates and no boolean is returned; the simple
mean-absolute-amplitude fallback that the code's own comment announces
(`# Fallback to simple energy check if framing fails`) is unreachable. -/
theorem detect_speech_short_input_raises :
    detectSpeech speechEnergyThreshold [] = .error "Input is too short" ∧
    detectSpeech speechEnergyThreshold (List.replicate 399 1) =
      .error "Input is too short" :=
  ⟨rfl, rfl⟩

/-- One 503 response consumes one retry and carries the response body along
as `last_error`. -/
theorem restGo_503 (oracle : ℕ → AttemptOutcome) (maxR remaining attempt : ℕ)
    (lastErr : Option String) (bd : String) (payload : List LabelScore)
    (hresp : oracle attempt = .response 503 bd payload) :
    restGo oracle maxR (remaining + 1) attempt lastErr =
      restGo oracle maxR remaining (attempt + 1) (some bd) := by
  rw [restGo.eq_2, hresp]
  dsimp only
  rw [if_neg (by decide), if_pos rfl]

/-- C6.  When the local classifier fails (or returns nothing) and the remote
classifier answers 503 on all three tries, the chain returns a *successful*
response whose payload is exactly the fixed synthetic distribution
neutral 0.8 / happy 0.1 / sad 0.05 / angry 0.05, tagged with
`_meta.using_fallback = True` so the caller can tell it from a real
inference. -/
theorem fallback_chain_synthetic_result (localErr : String)
    (oracle : ℕ → AttemptOutcome) (bd : ℕ → String)
    (payload : ℕ → List LabelScore)
    (h : ∀ i, i < 3 → oracle i = .response 503 (bd i) (payload i)) :
    ∃ reason, processAudio true (.error localErr) oracle true true =
      .success fallbackResult (some ⟨true, reason⟩) := by
  refine ⟨"Service unavailable after " ++ toString 3 ++ " attempts: " ++
    (some (bd 2)).getD "None", ?_⟩
  show restGo oracle 3 (2 + 1) 0 none = _
  rw [restGo_503 oracle 3 2 0 none (bd 0) (payload 0) (h 0 (by omega))]
  show restGo oracle 3 (1 + 1) 1 (some (bd 0)) = _
  rw [restGo_503 oracle 3 1 1 (some (bd 0)) (bd 1) (payload 1) (h 1 (by omega))]
  show restGo oracle 3 (0 + 1) 2 (some (bd 1)) = _
  rw [restGo_503 oracle 3 0 2 (some (bd 1)) (bd 2) (payload 2) (h 2 (by omega))]
  rfl

/-- Witness for `fallback_chain_synthetic_result`: a concrete run in which
the local classifier raised and every remote attempt returned 503. -/
theorem fallback_chain_synthetic_result_witness :
    ∃ reason, processAudio true (.error "local classifier failed")
        (fun _ => .response 503 "loading" []) true true =
      .success fallbackResult (some ⟨true, reason⟩) :=
  fallback_chain_synthetic_result "local classifier failed"
    (fun _ => .response 503 "loading" []) (fun _ => "loading") (fun _ => [])
    (fun _ _ => rfl)

/-- Counterexample to C7 as stated.  `requests.Response.ok` is
`status_code < 400`, not "2xx": an HTTP 300 response (non-2xx, non-503) on
the first attempt makes the chain return a *success* carrying the response
payload — not an error result with the upstream status code as the claim
demands. -/
theorem retry_claim_counterexample :
    processWithRestApi (fun _ => .response 300 "multiple choices" [⟨"x", 1⟩]) 3 =
      .success [⟨"x", 1⟩] none := rfl

/-- C7 (amended: "non-2xx" must read "status in [400, 600)").  Any first
response whose status is at least 400, below 600 and different from 503 ends
the chain at once — the conclusion depends on the oracle only through
attempt 0, so no further attempt is made — with an error result carrying the
upstream status code and response body; 503 remains the only retryable
status. -/
theorem non_retryable_status_immediate_error (oracle : ℕ → AttemptOutcome)
    (st : ℕ) (bd : String) (payload : List LabelScore)
    (h0 : oracle 0 = .response st bd payload)
    (h4 : 400 ≤ st) (h6 : st < 600) (hn : st ≠ 503) :
    processWithRestApi oracle 3 =
      .apiError st ("API error: " ++ toString st) bd
        ⟨true, "API error: " ++ toString st⟩ := by
  show restGo oracle 3 (2 + 1) 0 none = _
  unfold restGo
  rw [h0]
  dsimp only
  rw [if_neg (by simp [responseOk]; omega), if_neg hn]

/-- Witness for `non_retryable_status_immediate_error` at HTTP 400 on the
first attempt. -/
theorem non_retryable_status_witness :
    processWithRestApi (fun _ => .response 400 "bad request" []) 3 =
      .apiError 400 ("API error: " ++ toString 400) "bad request"
        ⟨true, "API error: " ++ toString 400⟩ :=
  non_retryable_status_immediate_error (fun _ => .response 400 "bad request" [])
    400 "bad request" [] rfl (by omega) (by omega) (by omega)

/-- `getD` of a list whose members are all zero is zero at every index (the
default is zero too). -/
theorem getD_zero_of_all_zero (l : List ℚ) (hz : ∀ q ∈ l, q = 0) (i : ℕ) :
    l.getD i 0 = 0 := by
  rcases lt_or_ge i l.length with hi | hi
  · rw [List.getD_eq_getElem l 0 hi]
    exact hz _ (List.getElem_mem hi)
  · exact List.getD_eq_default l 0 hi

/-- On a non-empty input the smoothing convolution succeeds. -/
theorem smoothedEnergy_ok (y : List ℚ) (hy : y ≠ []) :
    ∃ es, smoothedEnergy y = .ok es := by
  have h1 : ¬ ((y.map (fun x => |x|)).length = 0) := by
    simpa [List.length_eq_zero] using hy
  have h2 : ¬ ((List.replicate 320 ((1:ℚ)/320)).length = 0) := by
    rw [List.length_replicate]
    omega
  unfold smoothedEnergy npConvolveSame
  rw [if_neg h1, if_neg h2]
  exact ⟨_, rfl⟩

/-- The smoothed envelope of an all-zero waveform is all zero: every entry
of the convolution is a sum of products with a zero factor. -/
theorem smoothedEnergy_all_zero (y es : List ℚ) (hzero : ∀ x ∈ y, x = 0)
    (hes : smoothedEnergy y = .ok es) : ∀ q ∈ es, q = 0 := by
  have habs : ∀ i, (y.map (fun x => |x|)).getD i 0 = 0 := by
    intro i
    refine getD_zero_of_all_zero _ ?_ i
    intro q hq
    obtain ⟨x, hx, rfl⟩ := List.mem_map.mp hq
    rw [hzero x hx, abs_zero]
  unfold smoothedEnergy npConvolveSame at hes
  split at hes
  · exact absurd hes (by simp)
  · split at hes
    · exact absurd hes (by simp)
    · obtain rfl := (Except.ok.injEq _ _).mp hes
      intro q hq
      have hq' := List.mem_of_mem_drop (List.mem_of_mem_take hq)
      obtain ⟨k, _, rfl⟩ := List.mem_map.mp hq'
      refine List.sum_eq_zero ?_
      intro t ht
      obtain ⟨i, _, rfl⟩ := List.mem_map.mp ht
      split
      · rw [habs i, zero_mul]
      · rfl

/-- A peak candidate must clear the `max(0.05, …)` height gate, so an
all-zero envelope yields no syllable peaks at all. -/
theorem speechPeaks_all_zero (es : List ℚ) (hz : ∀ q ∈ es, q = 0) :
    speechPeaks es = [] := by
  unfold speechPeaks findPeaks
  have hfilter : (localMaxima es).filter
      (fun i => heightOkB (energyMean es) (energyVariance es) (es.getD i 0)) = [] := by
    refine List.filter_eq_nil_iff.mpr ?_
    intro i _
    rw [getD_zero_of_all_zero es hz i]
    simp only [heightOkB, Bool.and_eq_true, decide_eq_true_eq]
    intro hcontra
    have := hcontra.1.1
    norm_num at this
  rw [hfilter]
  rfl

/-- C8 (amended: the claim holds for every **non-empty** waveform; on the
empty waveform `np.convolve` raises).  For every non-empty waveform the
speech-rate computation succeeds; the result is non-negative; it is 0
whenever no envelope peaks are found or the speech-only duration is not
positive; and on an all-zero (silent) waveform it is exactly 0. -/
theorem speech_rate_nonneg_total (y : List ℚ) (hy : y ≠ []) :
    ∃ es r, smoothedEnergy y = .ok es ∧ calculateSpeechRate y = .ok r ∧
      0 ≤ r ∧
      ((speechPeaks es = [] ∨ speechDuration y es ≤ 0) → r = 0) ∧
      ((∀ x ∈ y, x = 0) → r = 0) := by
  obtain ⟨es, hes⟩ := smoothedEnergy_ok y hy
  have hzero_if : (speechPeaks es = [] ∨ speechDuration y es ≤ 0) →
      (if 0 < speechDuration y es ∧ 0 < (speechPeaks es).length then
        ((speechPeaks es).length : ℚ) / speechDuration y es else 0) = 0 := by
    intro hcase
    refine if_neg ?_
    rintro ⟨hd, hn⟩
    rcases hcase with hp | hd'
    · rw [hp] at hn
      exact absurd hn (by simp)
    · exact absurd (lt_of_lt_of_le hd hd') (lt_irrefl 0)
  refine ⟨es, _, hes, ?_, ?_, hzero_if, ?_⟩
  · unfold calculateSpeechRate
    rw [hes]
  · by_cases hc : 0 < speechDuration y es ∧ 0 < (speechPeaks es).length
    · rw [if_pos hc]
      exact div_nonneg (Nat.cast_nonneg _) (le_of_lt hc.1)
    · rw [if_neg hc]
  · intro hz
    exact hzero_if (Or.inl (speechPeaks_all_zero es (smoothedEnergy_all_zero y es hz hes)))

/-- Witness for `speech_rate_nonneg_total` at the one-sample silent
waveform. -/
theorem speech_rate_witness :
    ([(0:ℚ)] ≠ []) ∧
    (∃ es r, smoothedEnergy [(0:ℚ)] = .ok es ∧
      calculateSpeechRate [(0:ℚ)] = .ok r ∧ 0 ≤ r ∧
      ((speechPeaks es = [] ∨ speechDuration [(0:ℚ)] es ≤ 0) → r = 0) ∧
      ((∀ x ∈ [(0:ℚ)], x = 0) → r = 0)) :=
  ⟨by simp, speech_rate_nonneg_total [0] (by simp)⟩

/-- Counterexample to C8 as stated ("for every input waveform"): on the
empty waveform `np.convolve` raises `ValueError: a cannot be empty`, so
`calculate_speech_rate` raises instead of returning a non-negative rate. -/
theorem speech_rate_empty_counterexample :
    calculateSpeechRate [] = .error "a cannot be empty" := rfl

/-- A clamped index into a non-empty category list always lands inside it. -/
theorem getD_min_mem (l : List String) (d : String) (i : ℕ) (h : l ≠ []) :
    l.getD (min i (l.length - 1)) d ∈ l := by
  have hpos : 0 < l.length := List.length_pos.mpr h
  have hlt : min i (l.length - 1) < l.length :=
    lt_of_le_of_lt (min_le_right _ _) (by omega)
  rw [List.getD_eq_getElem l d hlt]
  exact List.getElem_mem hlt

/-- C10.  `ASRService.process_audio` is total: whatever the input feature
array (empty or of the wrong length), the loaded model (which may raise) and
the softmax exponential, it returns a record with exactly the fluency /
tempo / pronunciation entries, each category drawn from its fixed list and
accompanied by a confidence; an empty feature array or a model failure
yields the fixed default (Medium Fluency 0.5, Medium Tempo 0.5, Clear
Pronunciation 0.5). -/
theorem asr_process_audio_total (model : List ℚ → Except String (List ℚ))
    (expF : ℚ → ℚ) (features : List ℚ) :
    (asrProcessAudio model expF features).fluency.category ∈ fluencyCategories ∧
    (asrProcessAudio model expF features).tempo.category ∈ tempoCategories ∧
    (asrProcessAudio model expF features).pronunciation.category ∈
      pronunciationCategories ∧
    (features = [] → asrProcessAudio model expF features = asrDefault) ∧
    (∀ err, model (fitLength 13 features) = .error err →
      asrProcessAudio model expF features = asrDefault) := by
  by_cases hf : features.length = 0
  · have hres : asrProcessAudio model expF features = asrDefault := by
      unfold asrProcessAudio
      rw [if_pos hf]
    rw [hres]
    exact ⟨by simp [asrDefault, fluencyCategories],
      by simp [asrDefault, tempoCategories],
      by simp [asrDefault, pronunciationCategories],
      fun _ => rfl, fun _ _ => rfl⟩
  · cases hm : model (fitLength 13 features) with
    | error e =>
      have hres : asrProcessAudio model expF features = asrDefault := by
        unfold asrProcessAudio
        rw [if_neg hf, hm]
      rw [hres]
      exact ⟨by simp [asrDefault, fluencyCategories],
        by simp [asrDefault, tempoCategories],
        by simp [asrDefault, pronunciationCategories],
        fun _ => rfl, fun _ _ => rfl⟩
    | ok out =>
      have hres : asrProcessAudio model expF features =
          { fluency := ⟨fluencyCategories.getD
              (min (argmaxList (asrScores out).1) (fluencyCategories.length - 1)) "",
              softmaxAt expF (asrScores out).1 (argmaxList (asrScores out).1)⟩
            tempo := ⟨tempoCategories.getD
              (min (argmaxList (asrScores out).2.1) (tempoCategories.length - 1)) "",
              softmaxAt expF (asrScores out).2.1 (argmaxList (asrScores out).2.1)⟩
            pronunciation := ⟨pronunciationCategories.getD
              (min (argmaxList (asrScores out).2.2) (pronunciationCategories.length - 1)) "",
              softmaxAt expF (asrScores out).2.2 (argmaxList (asrScores out).2.2)⟩ } := by
        unfold asrProcessAudio
        rw [if_neg hf, hm]
      rw [hres]
      refine ⟨getD_min_mem _ _ _ (by simp [fluencyCategories]),
        getD_min_mem _ _ _ (by simp [tempoCategories]),
        getD_min_mem _ _ _ (by simp [pronunciationCategories]),
        fun hemp => absurd (by rw [hemp]; rfl : features.length = 0) hf,
        fun err herr => absurd herr (by simp)⟩

/-- Witness for `asr_process_audio_total`: the empty feature array with an
always-failing model yields the fixed default. -/
theorem asr_process_audio_total_witness :
    asrProcessAudio (fun _ => .error "inference failed") (fun q => q) [] =
      asrDefault :=
  (asr_process_audio_total (fun _ => .error "inference failed")
    (fun q => q) []).2.2.2.1 rfl

/-- Length of the C9 probe waveform. -/
theorem c9Audio_length : c9Audio.length = 2048 := by
  unfold c9Audio
  simp only [List.length_append, List.length_replicate, List.length_cons,
    List.length_nil]

/-- Frame 0 of the probe contains only the unit spike. -/
theorem c9_mse0 : mseFrame c9Audio 0 = 1/2048 := by
  unfold mseFrame c9Audio
  simp (disch := simp; omega) only [List.drop_zero, List.take_append_eq_append_take,
    List.take_replicate, List.length_replicate, List.length_append, List.length_cons,
    List.length_nil, List.take_of_length_le, List.drop_eq_nil_of_le,
    List.drop_append_eq_append_drop, List.drop_replicate, List.map_append,
    List.map_replicate, List.sum_append, List.sum_replicate, List.map_cons,
    List.map_nil, List.sum_cons, List.sum_nil, smul_zero]
  norm_num

/-- Frame 1 of the probe contains only the unit spike. -/
theorem c9_mse1 : mseFrame c9Audio 1 = 1/2048 := by
  unfold mseFrame c9Audio
  simp (disch := simp; omega) only [List.drop_zero, List.take_append_eq_append_take,
    List.take_replicate, List.length_replicate, List.length_append, List.length_cons,
    List.length_nil, List.take_of_length_le, List.drop_eq_nil_of_le,
    List.drop_append_eq_append_drop, List.drop_replicate, List.map_append,
    List.map_replicate, List.sum_append, List.sum_replicate, List.map_cons,
    List.map_nil, List.sum_cons, List.sum_nil, smul_zero]
  norm_num

/-- Frame 2 of the probe contains both spikes, so it is the loudest frame
(`(1 + 1/2025)/2048`). -/
theorem c9_mse2 : mseFrame c9Audio 2 = 1013/2073600 := by
  unfold mseFrame c9Audio
  simp (disch := simp; omega) only [List.drop_zero, List.take_append_eq_append_take,
    List.take_replicate, List.length_replicate, List.length_append, List.length_cons,
    List.length_nil, List.take_of_length_le, List.drop_eq_nil_of_le,
    List.drop_append_eq_append_drop, List.drop_replicate, List.map_append,
    List.map_replicate, List.sum_append, List.sum_replicate, List.map_cons,
    List.map_nil, List.sum_cons, List.sum_nil, smul_zero]
  norm_num

/-- Frame 3 of the probe contains only the small `1/45` spike. -/
theorem c9_mse3 : mseFrame c9Audio 3 = 1/4147200 := by
  unfold mseFrame c9Audio
  simp (disch := simp; omega) only [List.drop_zero, List.take_append_eq_append_take,
    List.take_replicate, List.length_replicate, List.length_append, List.length_cons,
    List.length_nil, List.take_of_length_le, List.drop_eq_nil_of_le,
    List.drop_append_eq_append_drop, List.drop_replicate, List.map_append,
    List.map_replicate, List.sum_append, List.sum_replicate, List.map_cons,
    List.map_nil, List.sum_cons, List.sum_nil, smul_zero]
  norm_num

/-- Frame 4 of the probe contains only the small `1/45` spike. -/
theorem c9_mse4 : mseFrame c9Audio 4 = 1/4147200 := by
  unfold mseFrame c9Audio
  simp (disch := simp; omega) only [List.drop_zero, List.take_append_eq_append_take,
    List.take_replicate, List.length_replicate, List.length_append, List.length_cons,
    List.length_nil, List.take_of_length_le, List.drop_eq_nil_of_le,
    List.drop_append_eq_append_drop, List.drop_replicate, List.map_append,
    List.map_replicate, List.sum_append, List.sum_replicate, List.map_cons,
    List.map_nil, List.sum_cons, List.sum_nil, smul_zero]
  norm_num

/-- The reference level (`np.max` of the frame energies) of the probe. -/
theorem c9_refMse : refMse c9Audio = 1013/2073600 := by
  unfold refMse
  rw [c9Audio_length]
  rw [show rmsFrameCount 2048 = 5 from rfl, show List.range 5 = [0, 1, 2, 3, 4] from rfl]
  simp only [List.map_cons, List.map_nil, c9_mse0, c9_mse1, c9_mse2, c9_mse3, c9_mse4]
  simp only [List.foldl_cons, List.foldl_nil]
  norm_num [max_def]

/-- At the 30 dB gate of the code, only the three frames containing the unit
spike count as non-silent. -/
theorem c9_nonsilent30 : trimNonSilent trimRatio30 c9Audio = [0, 1, 2] := by
  unfold trimNonSilent
  rw [c9Audio_length]
  rw [show rmsFrameCount 2048 = 5 from rfl, show List.range 5 = [0, 1, 2, 3, 4] from rfl]
  simp only [List.filter_cons, List.filter_nil, c9_refMse, c9_mse0, c9_mse1, c9_mse2,
    c9_mse3, c9_mse4, decide_eq_true_eq]
  norm_num [max_def, aminSq, trimRatio30]

/-- At the claimed 40 dB gate, all five frames count as non-silent. -/
theorem c9_nonsilent40 : trimNonSilent (1/10000) c9Audio = [0, 1, 2, 3, 4] := by
  unfold trimNonSilent
  rw [c9Audio_length]
  rw [show rmsFrameCount 2048 = 5 from rfl, show List.range 5 = [0, 1, 2, 3, 4] from rfl]
  simp only [List.filter_cons, List.filter_nil, c9_refMse, c9_mse0, c9_mse1, c9_mse2,
    c9_mse3, c9_mse4, decide_eq_true_eq]
  norm_num [max_def, aminSq]

/-- The length of a librosa trim, given the non-silent frame interval. -/
theorem librosaTrim_length_of (thr : ℚ) (y : List ℚ) (j0 jl : ℕ) (tl : List ℕ)
    (hns : trimNonSilent thr y = j0 :: tl)
    (hlast : (j0 :: tl).getLast? = some jl) :
    (librosaTrim thr y).length =
      (y.length ⊓ (512 * (jl + 1)) - 512 * j0) ⊓ (y.length - 512 * j0) := by
  unfold librosaTrim
  rw [hns]
  dsimp only
  rw [hlast]
  dsimp only
  rw [List.length_take, List.length_drop]

/-- Length of the 30 dB trim of the probe: the slice from frame 0 to the end
of frame 2, i.e. 1536 samples. -/
theorem c9_trim30_length : (librosaTrim trimRatio30 c9Audio).length = 1536 := by
  rw [librosaTrim_length_of trimRatio30 c9Audio 0 2 [1, 2] c9_nonsilent30 rfl,
    c9Audio_length]
  omega

/-- Length of the claimed 40 dB trim of the probe: all 2048 samples. -/
theorem c9_trim40_length : (librosaTrim (1/10000) c9Audio).length = 2048 := by
  rw [librosaTrim_length_of (1/10000) c9Audio 0 4 [1, 2, 3, 4] c9_nonsilent40 rfl,
    c9Audio_length]
  omega

/-- Counterexample to C9 as stated: `extract_features` trims with
`top_db=30`, not the claimed 40 dB gate.  On the probe waveform the code's
trimming step keeps 1536 samples while the claimed top-40dB step keeps all
2048, so the two preprocessing results differ. -/
theorem trim_gate_counterexample :
    (preprocess c9Audio).length = 1536 ∧
    (specPreprocess40 c9Audio).length = 2048 ∧
    preprocess c9Audio ≠ specPreprocess40 c9Audio := by
  have h30 : preprocess c9Audio = librosaTrim trimRatio30 c9Audio := by
    unfold preprocess
    rw [if_neg]
    rw [c9_trim30_length, c9Audio_length]
    norm_num
  have h40 : specPreprocess40 c9Audio = librosaTrim (1/10000) c9Audio := by
    unfold specPreprocess40
    rw [if_neg]
    rw [c9_trim40_length, c9Audio_length]
    norm_num
  refine ⟨by rw [h30, c9_trim30_length], by rw [h40, c9_trim40_length], ?_⟩
  rw [h30, h40]
  intro heq
  have hlen := congrArg List.length heq
  rw [c9_trim30_length, c9_trim40_length] at hlen
  omega

/-- C9 (amended: the gate is top-30dB, not top-40dB).  `extract_features`
first trims near-silence with `librosa.effects.trim(…, top_db=30)`; when the
trimmed signal is shorter than half the original, the trim is discarded and
the original is used, and otherwise the trimmed signal is used — so the
signal entering feature computation is never shorter than half the
original. -/
theorem preprocess_trim_guard (y : List ℚ) :
    (((librosaTrim trimRatio30 y).length : ℚ) < (y.length : ℚ) * (1/2) →
      preprocess y = y) ∧
    (¬ (((librosaTrim trimRatio30 y).length : ℚ) < (y.length : ℚ) * (1/2)) →
      preprocess y = librosaTrim trimRatio30 y) ∧
    y.length ≤ 2 * (preprocess y).length := by
  by_cases hc : ((librosaTrim trimRatio30 y).length : ℚ) < (y.length : ℚ) * (1/2)
  · have hp : preprocess y = y := by
      unfold preprocess
      rw [if_pos hc]
    exact ⟨fun _ => hp, fun hn => absurd hc hn, by rw [hp]; omega⟩
  · have hp : preprocess y = librosaTrim trimRatio30 y := by
      unfold preprocess
      rw [if_neg hc]
    refine ⟨fun h => absurd h hc, fun _ => hp, ?_⟩
    rw [hp]
    have h2 : (y.length : ℚ) ≤ 2 * ((librosaTrim trimRatio30 y).length : ℚ) := by
      have := not_lt.mp hc
      linarith
    exact_mod_cast h2

/-- Witness for `preprocess_trim_guard`: on the probe waveform the trim
keeps at least half the samples, so the trimmed signal is used. -/
theorem preprocess_trim_guard_witness :
    ¬ (((librosaTrim trimRatio30 c9Audio).length : ℚ) <
        (c9Audio.length : ℚ) * (1/2)) ∧
    preprocess c9Audio = librosaTrim trimRatio30 c9Audio := by
  have hguard : ¬ (((librosaTrim trimRatio30 c9Audio).length : ℚ) <
      (c9Audio.length : ℚ) * (1/2)) := by
    rw [c9_trim30_length, c9Audio_length]
    norm_num
  exact ⟨hguard, (preprocess_trim_guard c9Audio).2.1 hguard⟩

end ModelConvert
